import Mathlib

set_option maxRecDepth 8000

/- Verification of the bulk-loading utilities of can_tools/scrapers/db_util.py:
   the `fast_to_sql` loader, the `TempTable` context manager, the fixed
   `_dtype_map` dtype mapping and the `draft_sql_ddl_statement` DDL generator.
   The embedding models the database as an explicit state (persistent tables
   plus the session's temp tables), statement execution as state transitions
   accumulating a trace, and the staging path (df.to_csv followed by
   cursor.copy_from with an empty-string null marker) at the level of the
   tab-separated fields it writes and reads back. -/

/-- Semantic column dtypes: the numpy/pandas dtypes occurring as keys of the
fixed type mapping of db_util.py, plus further numpy dtypes that have no
entry there (float16, int16, bool). -/
inductive Dtype where
  | float64
  | float32
  | int64
  | int32
  | datetime64ns
  | datetime64nsUTC
  | object
  | float16
  | int16
  | boolDt
  deriving DecidableEq

/-- String rendering of a dtype, as numpy prints it when interpolated into an
error message. -/
def Dtype.name : Dtype → String
  | .float64 => "float64"
  | .float32 => "float32"
  | .int64 => "int64"
  | .int32 => "int32"
  | .datetime64ns => "datetime64[ns]"
  | .datetime64nsUTC => "datetime64[ns, UTC]"
  | .object => "object"
  | .float16 => "float16"
  | .int16 => "int16"
  | .boolDt => "bool"

/-- The fixed pandas-dtype to postgres-type mapping `_dtype_map` of
db_util.py (lines 126-134). Dtypes outside the seven listed keys are absent
from the python dict, modelled as `none`. -/
def _dtype_map : Dtype → Option String
  | .float64 => some "numeric(12, 6)"
  | .float32 => some "numeric(10, 4)"
  | .int64 => some "INT"
  | .int32 => some "SMALLINT"
  | .datetime64ns => some "TIMESTAMP WITHOUT TIME ZONE"
  | .datetime64nsUTC => some "TIMESTAMPTZ"
  | .object => some "TEXT"
  | _ => none

/-- A cell of a dataset: either missing (NaN/None) or a value carried in the
textual form that df.to_csv would print for it. -/
inductive Value where
  | null
  | text (s : String)
  deriving DecidableEq

abbrev Row := List Value

/-- csv QUOTE_MINIMAL with the separator set to a tab: a field is quoted iff
it holds the separator, the quote character or a line break. -/
def needsQuote (s : String) : Bool :=
  s.data.any (fun c => c = '\t' || c = '"' || c = '\n' || c = '\r')

/-- Minimal-quoting rendering of a field that does need quotes (the quote
character is doubled). -/
def quoteField (s : String) : String :=
  "\"" ++ ⟨s.data.foldr (fun c acc => if c = '"' then '"' :: '"' :: acc else c :: acc) []⟩ ++ "\""

/-- One cell as written by df.to_csv: na_rep defaults to the empty string,
every other value is written with minimal quoting. -/
def stageCell : Value → String
  | .null => ""
  | .text s => if needsQuote s then quoteField s else s

/-- One record as written by the csv writer used by df.to_csv: a record
consisting of one single empty field is quoted (so that the line is not
empty), every other record is the plain field list. -/
def stageRow (r : Row) : List String :=
  match r.map stageCell with
  | [""] => ["\"\""]
  | fs => fs

/-- Split a character list at every occurrence of the separator (the
str.split used by textwrap.dedent on newlines). -/
def splitCh (sep : Char) : List Char → List (List Char)
  | [] => [[]]
  | a :: xs =>
    match splitCh sep xs with
    | r :: rs => if a = sep then [] :: r :: rs else (a :: r) :: rs
    | [] => [[a]]

/-- Rejoin lines with the separator. -/
def joinCh (sep : List Char) : List (List Char) → List Char
  | [] => []
  | [l] => l
  | l :: m :: ls => l ++ sep ++ joinCh sep (m :: ls)

def isOct (c : Char) : Bool := '0' ≤ c && c ≤ '7'

def octVal (c : Char) : Nat := c.toNat - '0'.toNat

def isHexD (c : Char) : Bool :=
  ('0' ≤ c && c ≤ '9') || ('a' ≤ c && c ≤ 'f') || ('A' ≤ c && c ≤ 'F')

def hexVal (c : Char) : Nat :=
  if '0' ≤ c && c ≤ '9' then c.toNat - '0'.toNat
  else if 'a' ≤ c && c ≤ 'f' then c.toNat - 'a'.toNat + 10
  else c.toNat - 'A'.toNat + 10

/-- The control characters of the text-format backslash escapes; any other
backslashed character is taken as itself. -/
def copyCtrl (c : Char) : Char :=
  if c = 'b' then Char.ofNat 8
  else if c = 'f' then Char.ofNat 12
  else if c = 'n' then '\n'
  else if c = 'r' then '\r'
  else if c = 't' then '\t'
  else if c = 'v' then Char.ofNat 11
  else c

/-- Scanner state for the text-format backslash escapes: normal text, just
after a backslash, inside an octal escape (accumulated value and how many
more digits may still extend it), just after backslash-x, or after one hex
digit. -/
inductive CopySt where
  | normal
  | esc
  | oct (v : Nat) (more : Nat)
  | hex1
  | hex (v : Nat)
  deriving DecidableEq

/-- One scanner step of the text-format backslash unescaping
(CopyReadAttributesText): the characters emitted for this input character
and the next state.  After a backslash, b f n r t v become control
characters, an octal digit starts an up-to-three-digit octal code (masked
to one byte), x starts an up-to-two-digit hex code, and any other character
is taken as itself.  A pending octal or hex value is flushed when the next
character no longer extends it; that character is then handled as in normal
state (in particular it may itself start a new escape). -/
def copyStep : CopySt → Char → List Char × CopySt
  | .normal, c => if c = '\\' then ([], .esc) else ([c], .normal)
  | .esc, c =>
    if isOct c then ([], .oct (octVal c) 2)
    else if c = 'x' then ([], .hex1)
    else ([copyCtrl c], .normal)
  | .oct v more, c =>
    if isOct c && decide (0 < more) then ([], .oct (v * 8 + octVal c) (more - 1))
    else if c = '\\' then ([Char.ofNat (v % 256)], .esc)
    else ([Char.ofNat (v % 256), c], .normal)
  | .hex1, c =>
    if isHexD c then ([], .hex (hexVal c))
    else if c = '\\' then (['x'], .esc)
    else (['x', c], .normal)
  | .hex v, c =>
    if isHexD c then ([Char.ofNat (v * 16 + hexVal c)], .normal)
    else if c = '\\' then ([Char.ofNat v], .esc)
    else ([Char.ofNat v, c], .normal)

/-- Characters still owed when the input ends in the given state (a lone
trailing backslash is kept as itself). -/
def copyFlush : CopySt → List Char
  | .normal => []
  | .esc => ['\\']
  | .oct v _ => [Char.ofNat (v % 256)]
  | .hex1 => ['x']
  | .hex v => [Char.ofNat v]

def copyUnescapeAux : CopySt → List Char → List Char
  | st, [] => copyFlush st
  | st, c :: rest => (copyStep st c).1 ++ copyUnescapeAux (copyStep st c).2 rest

/-- Postgres text-format COPY backslash unescaping: run the escape scanner
over the raw field.  Bytes are modelled as characters; the end-of-data
marker is out of scope. -/
def copyUnescape (l : List Char) : List Char := copyUnescapeAux CopySt.normal l

/-- The line written for one staged record: its fields joined by the tab
separator (the to_csv output that copy_from reads). -/
def lineOf (fs : List String) : List Char := joinCh ['\t'] (fs.map String.data)

/-- Postgres text-format COPY attribute splitting: a raw tab ends the
current field, but a backslash escapes the character after it, so an
escaped tab is data rather than a boundary.  Escape sequences are kept raw
here and resolved by copyUnescape afterwards.  The format knows nothing of
csv quoting, so a quoted field containing a raw tab breaks into extra
fields (a real load then fails on the field count; see Oracle.copyFails). -/
def copySplit : List Char → List (List Char)
  | [] => [[]]
  | c :: rest =>
    if c = '\\' then
      match rest with
      | [] => [['\\']]
      | d :: rest1 =>
        match copySplit rest1 with
        | f :: fs => ('\\' :: d :: f) :: fs
        | [] => [['\\', d]]
    else if c = '\t' then [] :: copySplit rest
    else
      match copySplit rest with
      | f :: fs => (c :: f) :: fs
      | [] => [[c]]

/-- One raw field as read by cursor.copy_from with null set to the empty
string: a raw empty field is NULL (the null marker is compared before
unescaping), any other field has its backslash escapes resolved. -/
def decodeCell (f : String) : Value :=
  if f = "" then Value.null else Value.text ⟨copyUnescape f.data⟩

/-- One staged record as it lands in the table: the tab-joined line is cut
into raw fields with escape-aware splitting, then each raw field is decoded
(empty means NULL, otherwise unescaped). -/
def decodeRow (fs : List String) : Row :=
  (copySplit (lineOf fs)).map (fun f => decodeCell ⟨f⟩)

/-- An in-memory dataset: ordered named index levels, ordered named data
columns with their dtypes, and rows of cells aligned with
indexNames ++ column names. -/
structure DataFrame where
  indexNames : List String
  columns : List (String × Dtype)
  rows : List Row
  deriving DecidableEq

def idxOfName : List String → String → Option Nat
  | [], _ => none
  | n :: ns, c => if n = c then some 0 else (idxOfName ns c).map (· + 1)

/-- Select the fields of one row for the given column list (df.to_csv with
columns=cols picks the named columns in the order given). -/
def projectRow (names : List String) (r : Row) (cols : List String) : Row :=
  cols.map (fun c =>
    match idxOfName names c with
    | some i => r.getD i Value.null
    | none => Value.null)

def DataFrame.allNames (df : DataFrame) : List String :=
  df.indexNames ++ df.columns.map Prod.fst

/-- Default column selection of fast_to_sql (line 26-27):
df.index.names + list(df) when index is set, else list(df). -/
def defaultCols (df : DataFrame) (index : Bool) : List String :=
  if index then df.indexNames ++ df.columns.map Prod.fst
  else df.columns.map Prod.fst

/-- The staged payload written by df.to_csv and handed to copy_from: each row
projected to the selected columns and rendered field by field. -/
def stagedPayload (df : DataFrame) (cols : List String) : List (List String) :=
  df.rows.map (fun r => stageRow (projectRow df.allNames r cols))

/-- Association list of table name to stored rows. -/
abbrev TableMap := List (String × List Row)

def tmLookup : TableMap → String → Option (List Row)
  | [], _ => none
  | (n, rs) :: rest, k => if n = k then some rs else tmLookup rest k

def tmSet : TableMap → String → List Row → TableMap
  | [], k, rs => [(k, rs)]
  | (n, old) :: rest, k, rs =>
    if n = k then (k, rs) :: rest else (n, old) :: tmSet rest k rs

def tmErase : TableMap → String → TableMap
  | [], _ => []
  | (n, rs) :: rest, k =>
    if n = k then tmErase rest k else (n, rs) :: tmErase rest k

/-- Database state: persistent tables plus the current session's temp tables.
Temp tables shadow persistent ones on lookup (postgres search path). -/
structure DB where
  perm : TableMap
  temp : TableMap
  deriving DecidableEq

def DB.lookup (db : DB) (n : String) : Option (List Row) :=
  match tmLookup db.temp n with
  | some rs => some rs
  | none => tmLookup db.perm n

/-- DROP TABLE IF EXISTS: removes the session temp table of that name when
one exists, else the persistent table; dropping a missing table is a no-op,
never an error. -/
def DB.dropIfExists (db : DB) (n : String) : DB :=
  if (tmLookup db.temp n).isSome then { db with temp := tmErase db.temp n }
  else { db with perm := tmErase db.perm n }

/-- CREATE TABLE IF NOT EXISTS: a no-op when a table of that name is already
visible, else creates an empty persistent table. -/
def DB.createIfNotExists (db : DB) (n : String) : DB :=
  if (db.lookup n).isSome then db
  else { db with perm := (n, []) :: db.perm }

/-- Overwrite (or insert) the rows of the named table, targeting the session
temp table when one shadows the persistent table. -/
def DB.setRows (db : DB) (n : String) (rs : List Row) : DB :=
  if (tmLookup db.temp n).isSome then { db with temp := tmSet db.temp n rs }
  else { db with perm := tmSet db.perm n rs }

/-- Errors surfacing from a load or from statement execution. -/
inductive Err where
  /-- fast_to_sql line 70: unrecognized connection handle type. -/
  | valueError
  /-- CREATE TEMP TABLE when the session already holds a temp table of that
  name: postgres raises a duplicate-table error. -/
  | duplicateTable (t : String)
  /-- The database driver fails during the bulk copy (constraint violation,
  connection loss, ...), carrying an opaque driver error code. -/
  | driverError (code : Nat)
  /-- Any other statement failure (for instance TRUNCATE on a missing table). -/
  | execError
  deriving DecidableEq

/-- Failure oracle: which of the fallible operations exercised by the claims
fail in a given run. -/
structure Oracle where
  /-- some code: the bulk copy raises a driver error with that code
  (constraint violation, connection loss, or the copy being rejected by the
  server, for instance when a line's field count does not match the target
  column list). -/
  copyFails : Option Nat
  /-- the TRUNCATE statements issued by TempTable fail even when the table
  exists (permissions, connection loss, ...). -/
  truncateFails : Bool
  /-- the DROP issued by TempTable.__exit__ fails. -/
  exitDropFails : Bool
  deriving DecidableEq

/-- Statements issued on the connection, recorded in the execution trace. -/
inductive Stmt where
  | dropIfExists (t : String)
  /-- the create statement derived by pd.io.sql.get_schema from the frame's
  columns and dtypes, rewritten to CREATE TABLE IF NOT EXISTS at the fully
  qualified name (lines 55-60). -/
  | createIfNotExists (t : String) (schema : List (String × Dtype))
  /-- the same create statement rewritten to CREATE TEMP TABLE instead. -/
  | createTemp (t : String) (schema : List (String × Dtype))
  | deleteFrom (t : String)
  | copyFrom (t : String) (payload : List (List String))
  | commit
  | truncate (t : String)
  deriving DecidableEq

/-- CREATE TEMP TABLE: errors when the session already holds a temp table of
that name, else creates an empty session temp table (shadowing any
persistent table of the same name). -/
def DB.createTemp (db : DB) (n : String) : Except Err DB :=
  if (tmLookup db.temp n).isSome then .error (.duplicateTable n)
  else .ok { db with temp := (n, []) :: db.temp }

/-- The fully qualified table identity of fast_to_sql (line 29):
name when schema is None, else schema.name. -/
def fullNameOf (name : String) (schema : Option String) : String :=
  match schema with
  | none => name
  | some s => s ++ "." ++ name

/-- The kind of handle passed as conn: a sqlalchemy Engine, a sqlalchemy
Connection, or any other object that still accepts execute calls. -/
inductive ConnKind where
  | engine
  | connection
  | other
  deriving DecidableEq

/-- Result of a fast_to_sql call: the committed database state when the call
returns (or when the exception reaches the caller), the statements issued,
and the exception if one was raised. -/
structure LoadResult where
  db : DB
  trace : List Stmt
  err : Option Err
  deriving DecidableEq

/-- The inner upload_via_conn closure (lines 32-48): stage the frame through
to_csv, then on a cursor of the raw driver connection run DELETE (replace
policy only) and copy_from, and commit.  There is no try/except: a driver
failure in copy_from propagates as-is and the commit is never reached, so
the transaction's DELETE and partial COPY are discarded (rolled back when
the connection is released) and the committed state is the one from before
the transaction. -/
def upload_via_conn (o : Oracle) (full_name : String) (if_exists : String)
    (payload : List (List String)) (db : DB) (tr : List Stmt) : LoadResult :=
  let step1 :=
    if if_exists = "replace"
    then (db.setRows full_name [], tr ++ [Stmt.deleteFrom full_name])
    else (db, tr)
  match o.copyFails with
  | some e =>
      { db := db
        trace := step1.2 ++ [Stmt.copyFrom full_name payload]
        err := some (Err.driverError e) }
  | none =>
      let existing := (step1.1.lookup full_name).getD []
      { db := step1.1.setRows full_name (existing ++ payload.map decodeRow)
        trace := step1.2 ++ [Stmt.copyFrom full_name payload, Stmt.commit]
        err := none }

/-- fast_to_sql (lines 10-70).  In source order: compute cols and the fully
qualified name; under if_exists == "replace" issue DROP TABLE IF EXISTS
(engine-level execute, auto-committed); derive the create statement via
pd.io.sql.get_schema and issue it (CREATE TEMP TABLE when temp, else CREATE
TABLE IF NOT EXISTS); finally branch on the runtime type of conn, running
upload_via_conn for an Engine or Connection and raising ValueError
otherwise.  Note the type check happens only after the drop and create were
already executed. -/
def fast_to_sql (o : Oracle) (df : DataFrame) (conn : ConnKind) (name : String)
    (index : Bool) (if_exists : String) (cols? : Option (List String))
    (schema : Option String) (temp : Bool) (db : DB) : LoadResult :=
  let cols := match cols? with
    | some cs => cs
    | none => defaultCols df index
  let full_name := fullNameOf name schema
  let step1 :=
    if if_exists = "replace"
    then (db.dropIfExists full_name, [Stmt.dropIfExists full_name])
    else (db, ([] : List Stmt))
  if temp then
    match step1.1.createTemp full_name with
    | .error e =>
        { db := step1.1
          trace := step1.2 ++ [Stmt.createTemp full_name df.columns]
          err := some e }
    | .ok db2 =>
        let tr2 := step1.2 ++ [Stmt.createTemp full_name df.columns]
        match conn with
        | .other => { db := db2, trace := tr2, err := some Err.valueError }
        | _ => upload_via_conn o full_name if_exists (stagedPayload df cols) db2 tr2
  else
    let db2 := step1.1.createIfNotExists full_name
    let tr2 := step1.2 ++ [Stmt.createIfNotExists full_name df.columns]
    match conn with
    | .other => { db := db2, trace := tr2, err := some Err.valueError }
    | _ => upload_via_conn o full_name if_exists (stagedPayload df cols) db2 tr2

/-- TRUNCATE TABLE execution: fails when the table does not exist or when
the oracle makes it fail; otherwise empties the table. -/
def execTruncate (o : Oracle) (n : String) (db : DB) : Except Err DB :=
  if o.truncateFails then .error Err.execError
  else
    match db.lookup n with
    | none => .error Err.execError
    | some _ => .ok (db.setRows n [])

/-- TempTable._try_empty_table (lines 108-112): issue TRUNCATE and swallow
any failure with a bare except, returning with the state unchanged. -/
def _try_empty_table (o : Oracle) (n : String) (db : DB) : Except Err DB :=
  match execTruncate o n db with
  | .ok db' => .ok db'
  | .error _ => .ok db

/-- The TempTable context manager's state: the frame, the table name, the
destroy flag, and the keyword arguments forwarded to fast_to_sql (of which
if_exists and temp matter to the claims; index, cols and schema keep their
defaults). -/
structure TempTable where
  df : DataFrame
  table_name : String
  destroy : Bool
  if_exists : String
  temp : Bool
  deriving DecidableEq

/-- TempTable.__enter__: best-effort truncate, then fast_to_sql on the
engine. -/
def TempTable.enter (o : Oracle) (tt : TempTable) (db : DB) : LoadResult :=
  match _try_empty_table o tt.table_name db with
  | .ok db1 =>
      fast_to_sql o tt.df ConnKind.engine tt.table_name false tt.if_exists none none tt.temp db1
  | .error e => { db := db, trace := [], err := some e }

/-- TempTable.__exit__ (lines 119-122): best-effort truncate again, then,
when destroy was requested, DROP TABLE IF EXISTS (not guarded by any
try/except, so a drop failure raises out of __exit__).  Returns the state
and the exception raised by __exit__ itself, if any. -/
def TempTable.exit (o : Oracle) (tt : TempTable) (db : DB) : DB × Option Err :=
  match _try_empty_table o tt.table_name db with
  | .error e => (db, some e)
  | .ok db1 =>
      if tt.destroy then
        if o.exitDropFails then (db1, some Err.execError)
        else (db1.dropIfExists tt.table_name, none)
      else (db1, none)

/-- Outcome of a with-statement: normal completion or an exception reaching
the caller, together with the final database state. -/
inductive RunOutcome where
  | ok (db : DB)
  | raised (e : Err) (db : DB)
  deriving DecidableEq

/-- Python with-statement semantics for `with TempTable(...)`: run __enter__
(if it raises, __exit__ is not called); run the body, which may itself
mutate the database and may raise; always run __exit__ afterwards.  An
exception raised by __exit__ propagates (replacing the body's); otherwise
__exit__ returns None, which is falsy, so the body's exception (if any)
propagates to the caller unchanged. -/
def runWithTempTable (o : Oracle) (tt : TempTable) (body : DB → DB × Option Err)
    (db : DB) : RunOutcome :=
  let er := TempTable.enter o tt db
  match er.err with
  | some e => .raised e er.db
  | none =>
      let bo := body er.db
      let ex := TempTable.exit o tt bo.1
      match ex.2 with
      | some e2 => .raised e2 ex.1
      | none =>
          match bo.2 with
          | some e => .raised e ex.1
          | none => .ok ex.1

/-- python str.join. -/
def pyJoin (sep : String) : List String → String
  | [] => ""
  | [x] => x
  | x :: y :: xs => x ++ sep ++ pyJoin sep (y :: xs)

/-- One quoted column declaration of the generated DDL. -/
def declOf (c ty : String) : String := "\"" ++ c ++ "\" " ++ ty

/-- The per-column documentation-comment placeholder of the generated DDL. -/
def colCommentOf (tableName c : String) : String :=
  "COMMENT ON COLUMN " ++ tableName ++ "." ++ c ++ " is E'';"

/-- The per-table documentation-comment placeholder of the generated DDL. -/
def tableCommentOf (tableName : String) : String :=
  "COMMENT ON TABLE " ++ tableName ++ " is E'';"

/-- The ValueError message of draft_sql_ddl_statement (line 164), naming the
offending dtype and column. -/
def unsupportedMsg (c : String) (dt : Dtype) : String :=
  " Don't know how to handle dtype " ++ dt.name ++ " for column " ++ c ++ ". Add it!"

/-- The loop of draft_sql_ddl_statement (lines 157-167): walk the columns in
order, raising on the first dtype absent from _dtype_map, else collecting the
quoted declaration and the comment placeholder for each column. -/
def draftCols (tableName : String) : List (String × Dtype) → Except String (List String × List String)
  | [] => .ok ([], [])
  | (c, dt) :: rest =>
    match _dtype_map dt with
    | none => .error (unsupportedMsg c dt)
    | some ty =>
      match draftCols tableName rest with
      | .error e => .error e
      | .ok (cs, cms) => .ok (declOf c ty :: cs, colCommentOf tableName c :: cms)

/-- The f-string template of draft_sql_ddl_statement (lines 172-180), written
as the concatenation of its literal pieces with the interpolated table name,
joined column declarations and joined comment lines. -/
def ddlTemplate (tableName colStr commentStr : String) : String :=
  "\n    CREATE TABLE " ++ tableName ++ " (" ++ "\n        " ++ colStr ++
    "\n    );" ++ "\n" ++ "\n    " ++ tableCommentOf tableName ++ "\n" ++ "\n    " ++
    commentStr ++ "\n    "

def isWs (c : Char) : Bool := c.isWhitespace

/-- The leading whitespace of a line. -/
def leadingWs (l : List Char) : List Char := l.takeWhile isWs

/-- Whether the line holds anything beyond whitespace (dedent ignores
whitespace-only lines when computing the margin). -/
def hasNonWs (l : List Char) : Bool := l.any (fun c => !(isWs c))

/-- Longest common prefix of two character lists. -/
def commonPref : List Char → List Char → List Char
  | a :: as, b :: bs => if a = b then a :: commonPref as bs else []
  | _, _ => []

/-- Boolean list-prefix test. -/
def isPref : List Char → List Char → Bool
  | [], _ => true
  | _ :: _, [] => false
  | a :: as, b :: bs => a = b && isPref as bs

/-- The common leading-whitespace margin of the non-whitespace-only lines
(textwrap.dedent's margin computation). -/
def marginOf (lines : List (List Char)) : List Char :=
  match (lines.filter hasNonWs).map leadingWs with
  | [] => []
  | i :: is => is.foldl commonPref i

/-- Remove the margin from a line that starts with it (dedent's per-line
substitution). -/
def stripMargin (m l : List Char) : List Char :=
  if isPref m l then l.drop m.length else l

/-- textwrap.dedent: split into lines, compute the common margin of the
non-whitespace-only lines, and strip it from the front of every line. -/
def dedent (s : String) : String :=
  let ls := splitCh '\n' s.data
  ⟨joinCh ['\n'] (ls.map (stripMargin (marginOf ls)))⟩

/-- draft_sql_ddl_statement (lines 137-181): defaults the table name, walks
the columns through _dtype_map (raising ValueError on the first unmapped
dtype), joins declarations and comment lines, fills the template and dedents
it.  The function takes no connection and performs no I/O; the fallible
python function is modelled with Except, the error carrying the ValueError
message. -/
def draft_sql_ddl_statement (df : DataFrame) (table_name : Option String) : Except String String :=
  let tn := table_name.getD "REPLACE_NAME"
  match draftCols tn df.columns with
  | .error e => .error e
  | .ok (cols, col_comments) =>
    .ok (dedent (ddlTemplate tn (pyJoin ",\n        " cols) (pyJoin "\n    " col_comments)))

/-- Membership of a character sequence inside a string. -/
def strIn (t s : String) : Prop := ∃ u v, s.data = u ++ t.data ++ v

/-- No newline occurs in the string. -/
def noNl (s : String) : Bool := s.data.all (fun c => !(c = '\n'))

/-- A staged cell that survives the trip through to_csv and copy_from
unchanged: either missing (round-trips to null) or a non-empty text needing
no csv quoting and holding no backslash (to_csv writes backslashes raw and
COPY's text format would interpret them as escapes). -/
def cellOk : Value → Bool
  | .null => true
  | .text s => !(decide (s = "")) && !(needsQuote s) && !(s.data.any (fun c => c = '\\'))

/-- A staged record that survives the round trip unchanged: every cell
survives, the record is not the lone-missing-value record (which the csv
writer quotes into a literal pair of quote characters) and not the empty
record. -/
def rowOk (r : Row) : Bool :=
  r.all cellOk && !(decide (r = [Value.null])) && !(decide (r = []))

/- Shared concrete inputs for witnesses and counterexamples. -/

def oracle0 : Oracle := ⟨none, false, false⟩

def oracleCopyFail : Oracle := ⟨some 7, false, false⟩

def oracleTruncFail : Oracle := ⟨none, true, false⟩

def db0 : DB := ⟨[], []⟩

def dbPre : DB := ⟨[("t", [[Value.text "a"]])], []⟩

def dfX : DataFrame := ⟨[], [("a", Dtype.object)], [[Value.text "x"]]⟩

def dfU : DataFrame := ⟨[], [("a", Dtype.float16)], [[Value.text "1.5"]]⟩

def dfEmptyStr : DataFrame :=
  ⟨[], [("county", Dtype.object), ("value", Dtype.object)],
    [[Value.text "Dade", Value.text "120.5"], [Value.text "Leon", Value.text ""]]⟩

def dfC5 : DataFrame :=
  ⟨[], [("a", Dtype.float64), ("b", Dtype.object)],
    [[Value.text "1.5", Value.text "x"]]⟩

def ttPlain : TempTable := ⟨dfX, "t", false, "append", false⟩

def ttDestroy : TempTable := ⟨dfX, "t", true, "append", false⟩

/- ------------------------------------------------------------------ -/
/- Helper lemmas                                                      -/
/- ------------------------------------------------------------------ -/

theorem strData_append (a b : String) : (a ++ b).data = a.data ++ b.data := rfl

theorem strIn_of_eq {t s : String} (a b : String) (h : s = a ++ t ++ b) : strIn t s :=
  ⟨a.data, b.data, by subst h; simp [strData_append]⟩

theorem tmLookup_tmSet_self (m : TableMap) (k : String) (rs : List Row) :
    tmLookup (tmSet m k rs) k = some rs := by
  induction m with
  | nil => simp [tmSet, tmLookup]
  | cons p rest ih =>
    obtain ⟨n, old⟩ := p
    by_cases h : n = k
    · simp [tmSet, h, tmLookup]
    · simp [tmSet, h, tmLookup, ih]

theorem tmLookup_tmErase (m : TableMap) (k : String) :
    tmLookup (tmErase m k) k = none := by
  induction m with
  | nil => rfl
  | cons p rest ih =>
    obtain ⟨n, old⟩ := p
    by_cases h : n = k
    · simp [tmErase, h, ih]
    · simp [tmErase, h, tmLookup, ih]

/-- With a recognized handle, no temp table and a driver that does not fail
the copy, fast_to_sql returns without raising. -/
theorem fast_to_sql_err_none (o : Oracle) (df : DataFrame) (conn : ConnKind)
    (name : String) (index : Bool) (if_exists : String) (cols? : Option (List String))
    (schema : Option String) (db : DB)
    (hc : o.copyFails = none) (hconn : conn ≠ ConnKind.other) :
    (fast_to_sql o df conn name index if_exists cols? schema false db).err = none := by
  cases conn with
  | other => exact absurd rfl hconn
  | engine => simp [fast_to_sql, upload_via_conn, hc]
  | connection => simp [fast_to_sql, upload_via_conn, hc]

/-- Under the replace policy the very first statement issued is the DROP,
whatever the frame's columns and dtypes are. -/
theorem fast_to_sql_trace_head_replace (o : Oracle) (df : DataFrame) (conn : ConnKind)
    (name : String) (index : Bool) (cols? : Option (List String))
    (schema : Option String) (db : DB) (hconn : conn ≠ ConnKind.other) :
    (fast_to_sql o df conn name index "replace" cols? schema false db).trace.head?
      = some (Stmt.dropIfExists (fullNameOf name schema)) := by
  cases conn with
  | other => exact absurd rfl hconn
  | engine =>
    cases hcf : o.copyFails <;>
      simp [fast_to_sql, upload_via_conn, hcf, List.singleton_append]
  | connection =>
    cases hcf : o.copyFails <;>
      simp [fast_to_sql, upload_via_conn, hcf, List.singleton_append]

/- ------------------------------------------------------------------ -/
/- C10                                                                -/
/- ------------------------------------------------------------------ -/

/-- C10: for a conn argument that is neither an Engine nor a Connection but
accepts execute calls, fast_to_sql under if_exists="replace" first executes
the DROP statement and the CREATE statement against that handle and only
afterwards raises the unrecognized-handle ValueError, so when the error
reaches the caller the table has already been dropped and created. -/
theorem claim_C10 (o : Oracle) (df : DataFrame) (name : String) (index : Bool)
    (cols? : Option (List String)) (schema : Option String) (db : DB) :
    fast_to_sql o df ConnKind.other name index "replace" cols? schema false db =
      { db := (db.dropIfExists (fullNameOf name schema)).createIfNotExists
                (fullNameOf name schema)
        trace := [Stmt.dropIfExists (fullNameOf name schema),
                  Stmt.createIfNotExists (fullNameOf name schema) df.columns]
        err := some Err.valueError } := by
  simp [fast_to_sql]

/- ------------------------------------------------------------------ -/
/- C8                                                                 -/
/- ------------------------------------------------------------------ -/

/-- C8: TempTable._try_empty_table never propagates any error: whatever the
oracle and database state, it returns normally (the bare except swallows the
truncate failure), and in particular a missing table leaves the state
untouched and does not block setup or teardown. -/
theorem claim_C8 (o : Oracle) (n : String) (db : DB) :
    (∃ db', _try_empty_table o n db = Except.ok db') ∧
      (db.lookup n = none → _try_empty_table o n db = Except.ok db) := by
  constructor
  · unfold _try_empty_table
    cases execTruncate o n db with
    | ok d => exact ⟨d, rfl⟩
    | error e => exact ⟨db, rfl⟩
  · intro h
    unfold _try_empty_table execTruncate
    cases htr : o.truncateFails <;> simp [h]

theorem claim_C8_witness :
    _try_empty_table oracle0 "missing" db0 = Except.ok db0 :=
  (claim_C8 oracle0 "missing" db0).2 rfl

/- ------------------------------------------------------------------ -/
/- C4                                                                 -/
/- ------------------------------------------------------------------ -/

/-- C4 counterexample: with temp=True the create statement is CREATE TEMP
TABLE, which is not idempotent within one session: the first load on a fresh
connection succeeds, the second load on the same connection fails at the
create step with a duplicate-table error. -/
theorem claim_C4_counterexample :
    (fast_to_sql oracle0 dfX ConnKind.engine "t" false "append" none none true db0).err
      = none ∧
    (fast_to_sql oracle0 dfX ConnKind.engine "t" false "append" none none true
        (fast_to_sql oracle0 dfX ConnKind.engine "t" false "append" none none true db0).db).err
      = some (Err.duplicateTable "t") :=
  ⟨rfl, rfl⟩

/-- C4 (amended): with temp=False the create statement is CREATE TABLE IF
NOT EXISTS, so calling fast_to_sql twice in sequence on the same fresh
connection (with any frames and existence policies, a recognized handle and
a driver that does not fail the copies) does not fail on the second call:
both calls return without raising.  With temp=True the create is CREATE TEMP
TABLE, which is not idempotent within a session (see the counterexample);
the claim holds for the temp form only when each call gets a fresh session. -/
theorem claim_C4_amended (o : Oracle) (df df' : DataFrame) (conn : ConnKind)
    (name : String) (index index' : Bool) (ifE ifE' : String)
    (cols? cols?' : Option (List String)) (schema : Option String) (db : DB)
    (hc : o.copyFails = none) (hconn : conn ≠ ConnKind.other) :
    (fast_to_sql o df conn name index ifE cols? schema false db).err = none ∧
    (fast_to_sql o df' conn name index' ifE' cols?' schema false
        (fast_to_sql o df conn name index ifE cols? schema false db).db).err = none :=
  ⟨fast_to_sql_err_none o df conn name index ifE cols? schema db hc hconn,
   fast_to_sql_err_none o df' conn name index' ifE' cols?' schema _ hc hconn⟩

theorem claim_C4_witness :
    (fast_to_sql oracle0 dfX ConnKind.engine "t" false "append" none none false db0).err
        = none ∧
    (fast_to_sql oracle0 dfX ConnKind.engine "t" false "append" none none false
        (fast_to_sql oracle0 dfX ConnKind.engine "t" false "append" none none false db0).db).err
        = none :=
  claim_C4_amended oracle0 dfX dfX ConnKind.engine "t" false false "append" "append"
    none none none db0 rfl (by decide)

/- ------------------------------------------------------------------ -/
/- C7                                                                 -/
/- ------------------------------------------------------------------ -/

/-- C7 counterexample: a dataset with a float16 column, whose dtype has no
entry in _dtype_map, is bulk-loaded by fast_to_sql without any
UnsupportedTypeError: the call succeeds outright, and under the replace
policy its first issued statement is already the DROP, so network I/O
happens although the claim promises an error before any I/O. -/
theorem claim_C7_counterexample :
    _dtype_map Dtype.float16 = none ∧
    (fast_to_sql oracle0 dfU ConnKind.engine "t" false "replace" none none false db0).err
      = none ∧
    (fast_to_sql oracle0 dfU ConnKind.engine "t" false "replace" none none false db0).trace.head?
      = some (Stmt.dropIfExists "t") :=
  ⟨rfl, rfl, rfl⟩

/-- C7 (amended): fast_to_sql never consults the fixed type mapping: its
schema is derived by pandas get_schema, so a dataset column whose dtype has
no _dtype_map entry raises no UnsupportedTypeError at all — with a
recognized handle and a non-failing driver the call simply succeeds for
every frame, and under the replace policy the DROP statement is issued on
the connection before anything else (I/O precedes any dtype handling).
Only draft_sql_ddl_statement enforces the mapping. -/
theorem claim_C7_amended (o : Oracle) (df : DataFrame) (conn : ConnKind)
    (name : String) (index : Bool) (if_exists : String)
    (cols? : Option (List String)) (schema : Option String) (db : DB)
    (hc : o.copyFails = none) (hconn : conn ≠ ConnKind.other) :
    (fast_to_sql o df conn name index if_exists cols? schema false db).err = none ∧
    (if_exists = "replace" →
      (fast_to_sql o df conn name index if_exists cols? schema false db).trace.head?
        = some (Stmt.dropIfExists (fullNameOf name schema))) := by
  refine ⟨fast_to_sql_err_none o df conn name index if_exists cols? schema db hc hconn, ?_⟩
  intro h
  subst h
  exact fast_to_sql_trace_head_replace o df conn name index cols? schema db hconn

theorem claim_C7_witness :
    (fast_to_sql oracle0 dfU ConnKind.connection "t" false "replace" none none false db0).err
        = none ∧
    (fast_to_sql oracle0 dfU ConnKind.connection "t" false "replace" none none false db0).trace.head?
        = some (Stmt.dropIfExists "t") := by
  have h := claim_C7_amended oracle0 dfU ConnKind.connection "t" false "replace"
    none none db0 rfl (by decide)
  exact ⟨h.1, h.2 rfl⟩

/- ------------------------------------------------------------------ -/
/- C1                                                                 -/
/- ------------------------------------------------------------------ -/

/-- C1 counterexample: when the bulk copy fails, the exception reaching the
caller is the driver's own error (the code defines no LoadError wrapper),
and under the replace policy the destination's row set is not unchanged:
the auto-committed DROP and CREATE have already emptied it, so the table
that held one row before the call is empty when the error surfaces. -/
theorem claim_C1_counterexample :
    dbPre.lookup "t" = some [[Value.text "a"]] ∧
    (fast_to_sql oracleCopyFail dfX ConnKind.engine "t" false "replace" none none false dbPre).err
      = some (Err.driverError 7) ∧
    (fast_to_sql oracleCopyFail dfX ConnKind.engine "t" false "replace" none none false dbPre).db.lookup "t"
      = some [] :=
  ⟨rfl, rfl, rfl⟩

/-- C1 (amended): when the bulk copy fails, the underlying driver error
itself propagates out of fast_to_sql (no LoadError wrapper exists in the
code), and the staging transaction is never committed, so none of the
DELETE/COPY effects are visible: under any non-replace policy the
destination's row set is exactly what it was before the call, while under
the replace policy the table is left empty — not unchanged — because the
DROP and CREATE issued before staging were auto-committed. -/
theorem claim_C1_amended (o : Oracle) (df : DataFrame) (conn : ConnKind)
    (name : String) (index : Bool) (if_exists : String)
    (cols? : Option (List String)) (schema : Option String) (db : DB) (e : Nat)
    (hc : o.copyFails = some e) (hconn : conn ≠ ConnKind.other) (htemp : db.temp = []) :
    (fast_to_sql o df conn name index if_exists cols? schema false db).err
      = some (Err.driverError e) ∧
    (¬ if_exists = "replace" → ∀ rs, db.lookup (fullNameOf name schema) = some rs →
      (fast_to_sql o df conn name index if_exists cols? schema false db).db.lookup
        (fullNameOf name schema) = some rs) ∧
    (if_exists = "replace" →
      (fast_to_sql o df conn name index if_exists cols? schema false db).db.lookup
        (fullNameOf name schema) = some []) := by
  obtain ⟨perm, temp⟩ := db
  simp only at htemp
  subst htemp
  refine ⟨?_, ?_, ?_⟩
  · cases conn with
    | other => exact absurd rfl hconn
    | engine => simp [fast_to_sql, upload_via_conn, hc]
    | connection => simp [fast_to_sql, upload_via_conn, hc]
  · intro hne rs hrs
    have hsome : ((DB.mk perm []).lookup (fullNameOf name schema)).isSome := by
      rw [hrs]; rfl
    cases conn with
    | other => exact absurd rfl hconn
    | engine =>
      simp [fast_to_sql, upload_via_conn, hc, hne, DB.createIfNotExists, hsome, hrs]
    | connection =>
      simp [fast_to_sql, upload_via_conn, hc, hne, DB.createIfNotExists, hsome, hrs]
  · intro hre
    subst hre
    have hdrop : (DB.mk perm []).dropIfExists (fullNameOf name schema)
        = DB.mk (tmErase perm (fullNameOf name schema)) [] := by
      simp [DB.dropIfExists, tmLookup]
    have hlook : (DB.mk (tmErase perm (fullNameOf name schema)) []).lookup
        (fullNameOf name schema) = none := by
      simp [DB.lookup, tmLookup, tmLookup_tmErase]
    cases conn with
    | other => exact absurd rfl hconn
    | engine =>
      simp [fast_to_sql, upload_via_conn, hc, hdrop, DB.createIfNotExists, hlook,
        DB.lookup, tmLookup, tmLookup_tmErase]
    | connection =>
      simp [fast_to_sql, upload_via_conn, hc, hdrop, DB.createIfNotExists, hlook,
        DB.lookup, tmLookup, tmLookup_tmErase]

theorem claim_C1_witness :
    (fast_to_sql oracleCopyFail dfX ConnKind.connection "t" false "append" none none false dbPre).err
        = some (Err.driverError 7) ∧
    (fast_to_sql oracleCopyFail dfX ConnKind.connection "t" false "append" none none false dbPre).db.lookup "t"
        = some [[Value.text "a"]] := by
  have h := claim_C1_amended oracleCopyFail dfX ConnKind.connection "t" false "append"
    none none dbPre 7 rfl (by decide) rfl
  exact ⟨h.1, h.2.1 (by decide) [[Value.text "a"]] rfl⟩

/- ------------------------------------------------------------------ -/
/- Staging round-trip lemmas                                          -/
/- ------------------------------------------------------------------ -/

theorem stageRow_eq_map (r : Row) (h : rowOk r = true) : stageRow r = r.map stageCell := by
  have h' := h
  rw [rowOk, Bool.and_eq_true, Bool.and_eq_true] at h'
  have hall : r.all cellOk = true := h'.1.1
  have hne : r ≠ [Value.null] := by
    have h2 := h'.1.2
    simpa using h2
  unfold stageRow
  split
  · next heq =>
    exfalso
    cases r with
    | nil => simp at heq
    | cons v rest =>
      rw [List.map_cons] at heq
      have h1 : stageCell v = "" := (List.cons_eq_cons.mp heq).1
      have h2 : rest.map stageCell = [] := (List.cons_eq_cons.mp heq).2
      have hrest : rest = [] := List.map_eq_nil_iff.mp h2
      subst hrest
      cases v with
      | null => exact hne rfl
      | text s =>
        have hok : cellOk (Value.text s) = true :=
          List.all_eq_true.mp hall (Value.text s) (by simp)
        simp only [cellOk, Bool.and_eq_true, Bool.not_eq_true'] at hok
        rw [stageCell] at h1
        rw [hok.1.2] at h1
        simp at h1
        rw [h1] at hok
        simp at hok
  · rfl

theorem copyUnescape_id : ∀ (l : List Char), '\\' ∉ l → copyUnescape l = l := by
  have haux : ∀ (l : List Char), '\\' ∉ l → copyUnescapeAux CopySt.normal l = l := by
    intro l
    induction l with
    | nil => intro _; rfl
    | cons c rest ih =>
      intro h
      have hc : ¬(c = '\\') := fun hEq => h (hEq ▸ List.mem_cons_self _ _)
      have hrest : '\\' ∉ rest := fun hm => h (List.mem_cons_of_mem _ hm)
      simp [copyUnescapeAux, copyStep, hc, ih hrest]
  intro l hl
  exact haux l hl

theorem copySplit_cons_other (c : Char) (rest : List Char)
    (hc : ¬(c = '\\')) (hct : ¬(c = '\t')) :
    copySplit (c :: rest) = match copySplit rest with
      | f :: fs => (c :: f) :: fs
      | [] => [[c]] := by
  rw [copySplit.eq_def]
  dsimp only
  rw [if_neg hc, if_neg hct]

theorem copySplit_cons_tab (rest : List Char) :
    copySplit ('\t' :: rest) = [] :: copySplit rest := by
  rw [copySplit.eq_def]
  dsimp only
  rw [if_neg (by decide), if_pos rfl]

theorem copySplit_no_special (f : List Char) (ht : '\t' ∉ f) (hb : '\\' ∉ f) :
    copySplit f = [f] := by
  induction f with
  | nil => rfl
  | cons c f ih =>
    have hc : ¬(c = '\\') := fun hEq => hb (hEq ▸ List.mem_cons_self _ _)
    have hct : ¬(c = '\t') := fun hEq => ht (hEq ▸ List.mem_cons_self _ _)
    have ihh := ih (fun hm => ht (List.mem_cons_of_mem _ hm))
      (fun hm => hb (List.mem_cons_of_mem _ hm))
    rw [copySplit_cons_other c f hc hct, ihh]

theorem copySplit_append_sep (f r : List Char) (ht : '\t' ∉ f) (hb : '\\' ∉ f) :
    copySplit (f ++ '\t' :: r) = f :: copySplit r := by
  induction f with
  | nil => rw [List.nil_append, copySplit_cons_tab]
  | cons c f ih =>
    have hc : ¬(c = '\\') := fun hEq => hb (hEq ▸ List.mem_cons_self _ _)
    have hct : ¬(c = '\t') := fun hEq => ht (hEq ▸ List.mem_cons_self _ _)
    have ihh := ih (fun hm => ht (List.mem_cons_of_mem _ hm))
      (fun hm => hb (List.mem_cons_of_mem _ hm))
    rw [List.cons_append, copySplit_cons_other c _ hc hct, ihh]

theorem copySplit_join : ∀ (fs : List (List Char)), (∀ f ∈ fs, '\t' ∉ f ∧ '\\' ∉ f) →
    fs ≠ [] → copySplit (joinCh ['\t'] fs) = fs := by
  intro fs
  induction fs with
  | nil => intro _ h; exact absurd rfl h
  | cons f fs ih =>
    intro hf _
    cases fs with
    | nil =>
      have hff := hf f (List.mem_cons_self _ _)
      simp [joinCh, copySplit_no_special f hff.1 hff.2]
    | cons g fs' =>
      have hjoin : joinCh ['\t'] (f :: g :: fs') = f ++ '\t' :: joinCh ['\t'] (g :: fs') := by
        rw [joinCh]
        simp [List.append_assoc]
      have hff := hf f (List.mem_cons_self _ _)
      rw [hjoin, copySplit_append_sep f _ hff.1 hff.2,
        ih (fun x hx => hf x (List.mem_cons_of_mem _ hx)) (by simp)]

/-- A round-trip-safe cell stages to a field free of raw tabs and of
backslashes, so the staged line splits back at exactly the written
boundaries. -/
theorem stageCell_clean (v : Value) (h : cellOk v = true) :
    '\t' ∉ (stageCell v).data ∧ '\\' ∉ (stageCell v).data := by
  cases v with
  | null => exact ⟨by simp [stageCell], by simp [stageCell]⟩
  | text s =>
    simp only [cellOk, Bool.and_eq_true, Bool.not_eq_true'] at h
    have hstage : stageCell (Value.text s) = s := by
      rw [stageCell, h.1.2]
      simp
    rw [hstage]
    constructor
    · intro hm
      have hq := h.1.2
      rw [needsQuote, List.any_eq_false] at hq
      have := hq '\t' hm
      simp at this
    · intro hm
      have hb := h.2
      rw [List.any_eq_false] at hb
      have := hb '\\' hm
      simp at this

theorem decode_stage_cell (v : Value) (h : cellOk v = true) :
    decodeCell (stageCell v) = v := by
  cases v with
  | null => rfl
  | text s =>
    have hnb : '\\' ∉ (stageCell (Value.text s)).data := (stageCell_clean _ h).2
    simp only [cellOk, Bool.and_eq_true, Bool.not_eq_true'] at h
    have hs : ¬(s = "") := of_decide_eq_false h.1.1
    have hstage : stageCell (Value.text s) = s := by
      rw [stageCell, h.1.2]
      simp
    rw [hstage] at hnb ⊢
    rw [decodeCell, if_neg hs, copyUnescape_id s.data hnb]

theorem decode_stage (r : Row) (h : rowOk r = true) : decodeRow (stageRow r) = r := by
  rw [stageRow_eq_map r h]
  have h' := h
  rw [rowOk, Bool.and_eq_true, Bool.and_eq_true] at h'
  have hall : r.all cellOk = true := h'.1.1
  have hnil : r ≠ [] := by
    have h2 := h'.2
    simpa using h2
  have hcells : ∀ v ∈ r, cellOk v = true := fun v hv => List.all_eq_true.mp hall v hv
  unfold decodeRow lineOf
  rw [List.map_map]
  have hfields : ∀ f ∈ r.map (String.data ∘ stageCell), '\t' ∉ f ∧ '\\' ∉ f := by
    intro f hfm
    obtain ⟨v, hv, hfv⟩ := List.mem_map.mp hfm
    rw [← hfv]
    exact stageCell_clean v (hcells v hv)
  have hne : r.map (String.data ∘ stageCell) ≠ [] := by
    simpa using hnil
  rw [copySplit_join _ hfields hne, List.map_map]
  have hid : ∀ v ∈ r,
      ((fun f => decodeCell ⟨f⟩) ∘ String.data ∘ stageCell) v = id v := by
    intro v hv
    simpa using decode_stage_cell v (hcells v hv)
  rw [List.map_congr_left hid, List.map_id]

theorem idxOfName_cons_ne (n c : String) (ns : List String) (h : ¬(n = c)) :
    idxOfName (n :: ns) c = (idxOfName ns c).map (· + 1) := by
  simp [idxOfName, h]

theorem projectRow_self : ∀ (ns : List String) (vs : Row), ns.Nodup →
    vs.length = ns.length → projectRow ns vs ns = vs := by
  intro ns
  induction ns with
  | nil =>
    intro vs _ hl
    cases vs with
    | nil => rfl
    | cons v vs => simp at hl
  | cons n ns ih =>
    intro vs hn hl
    cases vs with
    | nil => simp at hl
    | cons v vs =>
      simp only [List.length_cons, Nat.succ.injEq] at hl
      have hnd := List.nodup_cons.mp hn
      show List.map _ (n :: ns) = v :: vs
      rw [List.map_cons]
      have hhead : (match idxOfName (n :: ns) n with
          | some i => (v :: vs).getD i Value.null
          | none => Value.null) = v := by
        simp [idxOfName]
      rw [hhead]
      have htail : List.map (fun c =>
          match idxOfName (n :: ns) c with
          | some i => (v :: vs).getD i Value.null
          | none => Value.null) ns
          = List.map (fun c =>
          match idxOfName ns c with
          | some i => vs.getD i Value.null
          | none => Value.null) ns := by
        apply List.map_congr_left
        intro c hc
        have hne : ¬(n = c) := fun hEq => hnd.1 (hEq ▸ hc)
        rw [idxOfName_cons_ne n c ns hne]
        cases idxOfName ns c with
        | none => rfl
        | some i => simp [Option.map_some', List.getD_cons_succ]
      rw [htail]
      exact congrArg (v :: ·) (ih vs hnd.2 hl)

/-- The staged payload decodes back to the frame's rows under the default
column selection, when the frame has no index levels, no duplicate column
names and only round-trip-safe cells. -/
theorem stagedPayload_decode (df : DataFrame)
    (hidx : df.indexNames = [])
    (hnd : (df.columns.map Prod.fst).Nodup)
    (hrows : ∀ r ∈ df.rows, r.length = df.columns.length ∧ rowOk r = true) :
    (stagedPayload df (defaultCols df false)).map decodeRow = df.rows := by
  unfold stagedPayload
  rw [List.map_map]
  have hrow : ∀ r ∈ df.rows,
      (decodeRow ∘ fun r => stageRow (projectRow df.allNames r (defaultCols df false))) r
        = id r := by
    intro r hr
    have h1 : df.allNames = df.columns.map Prod.fst := by
      simp [DataFrame.allNames, hidx]
    have h2 : defaultCols df false = df.columns.map Prod.fst := by
      simp [defaultCols]
    show decodeRow (stageRow (projectRow df.allNames r (defaultCols df false))) = r
    rw [h1, h2]
    rw [projectRow_self (df.columns.map Prod.fst) r hnd
      (by rw [(hrows r hr).1, List.length_map])]
    exact decode_stage r (hrows r hr).2
  rw [List.map_congr_left hrow, List.map_id]

/- ------------------------------------------------------------------ -/
/- C2                                                                 -/
/- ------------------------------------------------------------------ -/

/-- C2 counterexample: a successful replace load of a dataset holding a
genuine empty-string text cell does not leave the table with exactly the
dataset's rows: the empty string is staged as an empty field, which
copy_from's empty-string null marker reads back as a null. -/
theorem claim_C2_counterexample :
    (fast_to_sql oracle0 dfEmptyStr ConnKind.engine "t" false "replace" none none false db0).err
      = none ∧
    (fast_to_sql oracle0 dfEmptyStr ConnKind.engine "t" false "replace" none none false db0).db.lookup "t"
      = some [[Value.text "Dade", Value.text "120.5"], [Value.text "Leon", Value.null]] ∧
    ¬ [[Value.text "Dade", Value.text "120.5"], [Value.text "Leon", Value.null]]
        = dfEmptyStr.rows := by
  refine ⟨rfl, rfl, by decide⟩

/-- C2 (amended): under if_exists="replace" on a recognized handle the
loader first issues DROP TABLE IF EXISTS (dropping a missing table is not an
error), then the create statement, then deletes all rows from the
destination before staging, in exactly that statement order; after a
successful replace load the table holds exactly the staged image of the
dataset's rows — which equals the dataset's rows provided every cell
round-trips: no empty-string text cell (staged as the null marker), no
csv-special character or backslash in a text cell (COPY's text format
splits at raw tabs and interprets backslash escapes), and not a lone
missing value (which the csv writer quotes). -/
theorem claim_C2_amended (o : Oracle) (df : DataFrame) (conn : ConnKind)
    (name : String) (schema : Option String) (db : DB)
    (hc : o.copyFails = none) (hconn : conn ≠ ConnKind.other) (htemp : db.temp = [])
    (hidx : df.indexNames = [])
    (hnd : (df.columns.map Prod.fst).Nodup)
    (hrows : ∀ r ∈ df.rows, r.length = df.columns.length ∧ rowOk r = true) :
    (fast_to_sql o df conn name false "replace" none schema false db).err = none ∧
    (fast_to_sql o df conn name false "replace" none schema false db).db.lookup
        (fullNameOf name schema) = some df.rows ∧
    (fast_to_sql o df conn name false "replace" none schema false db).trace
      = [Stmt.dropIfExists (fullNameOf name schema),
         Stmt.createIfNotExists (fullNameOf name schema) df.columns,
         Stmt.deleteFrom (fullNameOf name schema),
         Stmt.copyFrom (fullNameOf name schema) (stagedPayload df (defaultCols df false)),
         Stmt.commit] := by
  obtain ⟨perm, temp⟩ := db
  simp only at htemp
  subst htemp
  have hdec := stagedPayload_decode df hidx hnd hrows
  have hdrop : (DB.mk perm []).dropIfExists (fullNameOf name schema)
      = DB.mk (tmErase perm (fullNameOf name schema)) [] := by
    simp [DB.dropIfExists, tmLookup]
  have hlook : (DB.mk (tmErase perm (fullNameOf name schema)) []).lookup
      (fullNameOf name schema) = none := by
    simp [DB.lookup, tmLookup, tmLookup_tmErase]
  cases conn with
  | other => exact absurd rfl hconn
  | engine =>
    refine ⟨?_, ?_, ?_⟩ <;>
      simp [fast_to_sql, upload_via_conn, hc, hdrop, DB.createIfNotExists, hlook,
        DB.setRows, DB.lookup, tmLookup, tmSet, tmLookup_tmErase, hdec,
        List.singleton_append]
  | connection =>
    refine ⟨?_, ?_, ?_⟩ <;>
      simp [fast_to_sql, upload_via_conn, hc, hdrop, DB.createIfNotExists, hlook,
        DB.setRows, DB.lookup, tmLookup, tmSet, tmLookup_tmErase, hdec,
        List.singleton_append]

theorem claim_C2_witness :
    (fast_to_sql oracle0 dfX ConnKind.engine "beds" false "replace" none none false dbPre).err
        = none ∧
    (fast_to_sql oracle0 dfX ConnKind.engine "beds" false "replace" none none false dbPre).db.lookup
        "beds" = some dfX.rows ∧
    (fast_to_sql oracle0 dfX ConnKind.engine "beds" false "replace" none none false dbPre).trace
      = [Stmt.dropIfExists "beds", Stmt.createIfNotExists "beds" dfX.columns,
         Stmt.deleteFrom "beds",
         Stmt.copyFrom "beds" (stagedPayload dfX (defaultCols dfX false)), Stmt.commit] :=
  claim_C2_amended oracle0 dfX ConnKind.engine "beds" none dbPre rfl (by decide) rfl rfl
    (by decide) (by decide)

/- ------------------------------------------------------------------ -/
/- C9                                                                 -/
/- ------------------------------------------------------------------ -/

/-- C9 counterexample: a genuine empty-string text cell in a two-column
record is staged exactly like a missing value (an empty field, no sentinel
distinguishes them) and so round-trips to a database null instead of the
empty string. -/
theorem claim_C9_counterexample :
    stageCell (Value.text "") = stageCell Value.null ∧
    decodeRow (stageRow [Value.text "county", Value.text ""])
      = [Value.text "county", Value.null] ∧
    ¬ (Value.null = Value.text "") := by
  refine ⟨rfl, rfl, by decide⟩

/-- C9 (amended): a missing value is staged as an empty field and
round-trips to a database null (not to an empty string, 0.0 or "nan"), and
every record of round-trip-safe cells — non-empty text values free of
csv-special characters and of backslashes, not the lone-missing-value
record — decodes back to itself, nulls included; but a genuine empty-string
text value is staged as exactly the same empty field, the code having no
sentinel distinct from the empty string, so it round-trips to null as well;
and a backslash-bearing text value is corrupted by COPY's escape
processing (a staged backslash-t pair comes back as a tab character). -/
theorem claim_C9_amended :
    decodeCell (stageCell Value.null) = Value.null ∧
    stageCell (Value.text "") = stageCell Value.null ∧
    decodeCell (stageCell (Value.text "")) = Value.null ∧
    decodeCell (stageCell (Value.text "a\\tb")) = Value.text "a\tb" ∧
    (∀ s : String, ¬ (s = "") → needsQuote s = false →
      s.data.any (fun c => c = '\\') = false →
      decodeCell (stageCell (Value.text s)) = Value.text s) ∧
    (∀ r : Row, rowOk r = true → decodeRow (stageRow r) = r) := by
  refine ⟨rfl, rfl, rfl, rfl, ?_, ?_⟩
  · intro s hs hq hb
    refine decode_stage_cell (Value.text s) ?_
    simp only [cellOk, Bool.and_eq_true, Bool.not_eq_true']
    exact ⟨⟨decide_eq_false hs, hq⟩, hb⟩
  · intro r hr
    exact decode_stage r hr

theorem claim_C9_witness :
    decodeCell (stageCell (Value.text "Dade")) = Value.text "Dade" ∧
    decodeRow (stageRow [Value.text "Leon", Value.null])
      = [Value.text "Leon", Value.null] := by
  refine ⟨claim_C9_amended.2.2.2.2.1 "Dade" (by decide) (by decide) (by decide), ?_⟩
  exact claim_C9_amended.2.2.2.2.2 [Value.text "Leon", Value.null] (by decide)

/- ------------------------------------------------------------------ -/
/- C3                                                                 -/
/- ------------------------------------------------------------------ -/

/-- The bare except of _try_empty_table makes it total: it always returns
normally. -/
theorem _try_empty_table_ok (o : Oracle) (n : String) (db : DB) :
    ∃ d, _try_empty_table o n db = Except.ok d := by
  unfold _try_empty_table
  cases execTruncate o n db with
  | ok d => exact ⟨d, rfl⟩
  | error e => exact ⟨db, rfl⟩

/-- When the truncate oracle does not fail and the table exists, the
best-effort truncate empties it. -/
theorem _try_empty_table_run (o : Oracle) (n : String) (db : DB)
    (htr : o.truncateFails = false) (hex : (db.lookup n).isSome = true) :
    _try_empty_table o n db = Except.ok (db.setRows n []) := by
  unfold _try_empty_table execTruncate
  rw [htr]
  cases hl : db.lookup n with
  | none => rw [hl] at hex; simp at hex
  | some rs => simp

/-- C3 counterexample: the body of a TempTable session raises after a
successful load, destroy is false, and the release-step truncate fails (the
failure is swallowed by design): the original exception does propagate
unchanged, but the table is left holding the session's row, not empty. -/
theorem claim_C3_counterexample :
    runWithTempTable oracleTruncFail ttPlain (fun d => (d, some (Err.driverError 3))) db0
      = RunOutcome.raised (Err.driverError 3) (DB.mk [("t", [[Value.text "x"]])] []) ∧
    ¬ ((DB.mk [("t", [[Value.text "x"]])] []).lookup "t" = some []) := by
  refine ⟨rfl, by decide⟩

/-- C3 (amended): the release step always runs after the body, and when the
release statements themselves succeed (the truncate is only best-effort and
its failure is swallowed; the destroy-drop is unguarded) the guarantee
holds: after the body raises, the body's original exception propagates to
the caller unchanged, and the table is left empty (destroy=false) or absent
(destroy=true).  When the release truncate fails the table may instead be
left with its rows (see the counterexample), and when destroy is set and the
drop itself raises, the drop's error would replace the body's. -/
theorem claim_C3_amended (o : Oracle) (tt : TempTable) (body : DB → DB × Option Err)
    (db db1 : DB) (e : Err)
    (hc : o.copyFails = none) (htr : o.truncateFails = false)
    (hdr : o.exitDropFails = false) (httemp : tt.temp = false)
    (hbody : body (TempTable.enter o tt db).db = (db1, some e))
    (hex : (db1.lookup tt.table_name).isSome = true)
    (htmp1 : tmLookup db1.temp tt.table_name = none) :
    ∃ db2, runWithTempTable o tt body db = RunOutcome.raised e db2 ∧
      (tt.destroy = false → db2.lookup tt.table_name = some []) ∧
      (tt.destroy = true → db2.lookup tt.table_name = none) := by
  obtain ⟨d0, hd0⟩ := _try_empty_table_ok o tt.table_name db
  have henter : (TempTable.enter o tt db).err = none := by
    unfold TempTable.enter
    rw [hd0]
    rw [httemp]
    exact fast_to_sql_err_none o tt.df ConnKind.engine tt.table_name false tt.if_exists
      none none d0 hc (by decide)
  have htry1 := _try_empty_table_run o tt.table_name db1 htr hex
  have hsetlook : (db1.setRows tt.table_name []).lookup tt.table_name = some [] := by
    unfold DB.setRows DB.lookup
    rw [htmp1]
    simp [htmp1, tmLookup_tmSet_self]
  cases hdes : tt.destroy with
  | false =>
    have hexit : TempTable.exit o tt db1 = (db1.setRows tt.table_name [], none) := by
      unfold TempTable.exit
      rw [htry1, hdes]
      simp
    refine ⟨db1.setRows tt.table_name [], ?_, fun _ => hsetlook, fun h => Bool.noConfusion h⟩
    unfold runWithTempTable
    simp only [henter, hbody, hexit]
  | true =>
    have hexit : TempTable.exit o tt db1
        = ((db1.setRows tt.table_name []).dropIfExists tt.table_name, none) := by
      unfold TempTable.exit
      rw [htry1, hdes, hdr]
      simp
    have hdroplook : ((db1.setRows tt.table_name []).dropIfExists tt.table_name).lookup
        tt.table_name = none := by
      unfold DB.setRows
      rw [htmp1]
      simp only [Option.isSome_none, Bool.false_eq_true, if_false]
      unfold DB.dropIfExists DB.lookup
      simp [htmp1, tmLookup_tmErase]
    refine ⟨(db1.setRows tt.table_name []).dropIfExists tt.table_name, ?_,
      fun h => Bool.noConfusion h, fun _ => hdroplook⟩
    unfold runWithTempTable
    simp only [henter, hbody, hexit]

theorem claim_C3_witness :
    ∃ db2, runWithTempTable oracle0 ttPlain (fun d => (d, some (Err.driverError 3))) db0
        = RunOutcome.raised (Err.driverError 3) db2 ∧
      (ttPlain.destroy = false → db2.lookup ttPlain.table_name = some []) ∧
      (ttPlain.destroy = true → db2.lookup ttPlain.table_name = none) :=
  claim_C3_amended oracle0 ttPlain (fun d => (d, some (Err.driverError 3))) db0
    (DB.mk [("t", [[Value.text "x"]])] []) (Err.driverError 3)
    rfl rfl rfl rfl rfl rfl rfl

/- ------------------------------------------------------------------ -/
/- C6                                                                 -/
/- ------------------------------------------------------------------ -/

theorem strIn_intro (t s : String) (u v : List Char) (h : s.data = u ++ t.data ++ v) :
    strIn t s := ⟨u, v, h⟩

/-- When some column's dtype is unmapped, the walk raises the ValueError for
the first such column. -/
theorem draftCols_error (tn : String) : ∀ (cols : List (String × Dtype)),
    (∃ p ∈ cols, _dtype_map p.2 = none) →
    ∃ c dt, (c, dt) ∈ cols ∧ _dtype_map dt = none ∧
      draftCols tn cols = .error (unsupportedMsg c dt) := by
  intro cols
  induction cols with
  | nil => rintro ⟨p, hp, _⟩; cases hp
  | cons p rest ih =>
    rintro ⟨q, hq, hqn⟩
    obtain ⟨c0, dt0⟩ := p
    cases hm : _dtype_map dt0 with
    | none =>
      exact ⟨c0, dt0, List.mem_cons_self _ _, hm, by simp [draftCols, hm]⟩
    | some ty =>
      have hrest : ∃ p ∈ rest, _dtype_map p.2 = none := by
        cases List.mem_cons.mp hq with
        | inl h =>
          exfalso
          rw [h] at hqn
          simp only at hqn
          rw [hqn] at hm
          cases hm
        | inr h => exact ⟨q, h, hqn⟩
      obtain ⟨c, dt, hmem, hdt, herr⟩ := ih hrest
      exact ⟨c, dt, List.mem_cons_of_mem _ hmem, hdt, by simp [draftCols, hm, herr]⟩

/-- C6: for every DataFrame holding a column whose dtype is absent from the
fixed mapping, draft_sql_ddl_statement raises the ValueError (the spec's
UnsupportedTypeError) for an offending column, and the message names both
that column and its dtype; the function takes no connection at all (its
embedding is a pure function of the frame and the table name), so no I/O is
performed. -/
theorem claim_C6 (df : DataFrame) (table_name : Option String)
    (h : ∃ p ∈ df.columns, _dtype_map p.2 = none) :
    ∃ c dt, (c, dt) ∈ df.columns ∧ _dtype_map dt = none ∧
      draft_sql_ddl_statement df table_name = .error (unsupportedMsg c dt) ∧
      strIn c (unsupportedMsg c dt) ∧ strIn dt.name (unsupportedMsg c dt) := by
  obtain ⟨c, dt, hmem, hdt, herr⟩ := draftCols_error (table_name.getD "REPLACE_NAME") df.columns h
  refine ⟨c, dt, hmem, hdt, ?_, ?_, ?_⟩
  · unfold draft_sql_ddl_statement
    simp only [herr]
  · exact strIn_intro c (unsupportedMsg c dt)
      (" Don't know how to handle dtype ".data ++ dt.name.data ++ " for column ".data)
      ". Add it!".data
      (by simp [unsupportedMsg, String.data_append, List.append_assoc])
  · exact strIn_intro dt.name (unsupportedMsg c dt)
      " Don't know how to handle dtype ".data
      (" for column ".data ++ c.data ++ ". Add it!".data)
      (by simp [unsupportedMsg, String.data_append, List.append_assoc])

theorem claim_C6_witness :
    ∃ c dt, (c, dt) ∈ dfU.columns ∧ _dtype_map dt = none ∧
      draft_sql_ddl_statement dfU (some "tbl") = .error (unsupportedMsg c dt) ∧
      strIn c (unsupportedMsg c dt) ∧ strIn dt.name (unsupportedMsg c dt) :=
  claim_C6 dfU (some "tbl") ⟨("a", Dtype.float16), by decide, rfl⟩

/- ------------------------------------------------------------------ -/
/- Lemmas about line splitting, margins and joining (for dedent)      -/
/- ------------------------------------------------------------------ -/

theorem splitCh_cons (sep a : Char) (xs : List Char) :
    splitCh sep (a :: xs) = match splitCh sep xs with
      | r :: rs => if a = sep then [] :: r :: rs else (a :: r) :: rs
      | [] => [[a]] := rfl

theorem splitCh_ne_nil (sep : Char) : ∀ (l : List Char), splitCh sep l ≠ [] := by
  intro l
  cases l with
  | nil => simp [splitCh]
  | cons a xs =>
    rw [splitCh_cons]
    cases h : splitCh sep xs with
    | nil => simp
    | cons r rs => by_cases ha : a = sep <;> simp [ha]

theorem splitCh_append_sep (sep : Char) : ∀ (u r : List Char),
    splitCh sep (u ++ sep :: r) = splitCh sep u ++ splitCh sep r := by
  intro u
  induction u with
  | nil =>
    intro r
    rw [List.nil_append, splitCh_cons]
    cases h : splitCh sep r with
    | nil => exact absurd h (splitCh_ne_nil sep r)
    | cons x xs => simp [splitCh]
  | cons a u ih =>
    intro r
    rw [List.cons_append, splitCh_cons, splitCh_cons, ih r]
    cases h : splitCh sep u with
    | nil => exact absurd h (splitCh_ne_nil sep u)
    | cons x xs =>
      cases hr : splitCh sep r with
      | nil => exact absurd hr (splitCh_ne_nil sep r)
      | cons y ys =>
        by_cases ha : a = sep <;> simp [ha, List.cons_append]

theorem splitCh_append_no_sep (sep : Char) : ∀ (p q : List Char), sep ∉ p →
    ∃ h t, splitCh sep q = h :: t ∧ splitCh sep (p ++ q) = (p ++ h) :: t := by
  intro p
  induction p with
  | nil =>
    intro q _
    cases hq : splitCh sep q with
    | nil => exact absurd hq (splitCh_ne_nil sep q)
    | cons h t => exact ⟨h, t, rfl, by simp [hq]⟩
  | cons a p ih =>
    intro q hp
    have ha : ¬(a = sep) := fun h => hp (h ▸ List.mem_cons_self _ _)
    have hpq : sep ∉ p := fun h => hp (List.mem_cons_of_mem _ h)
    obtain ⟨h, t, hq, hsplit⟩ := ih q hpq
    refine ⟨h, t, hq, ?_⟩
    rw [List.cons_append, splitCh_cons, hsplit]
    simp [ha]

theorem splitCh_no_sep (sep : Char) (l : List Char) (h : sep ∉ l) : splitCh sep l = [l] := by
  obtain ⟨h0, t0, hnil, hsplit⟩ := splitCh_append_no_sep sep l [] h
  have : splitCh sep ([] : List Char) = [[]] := rfl
  rw [this] at hnil
  cases hnil
  rw [List.append_nil] at hsplit
  simpa using hsplit

theorem isPref_iff : ∀ (a b : List Char), isPref a b = true ↔ ∃ r, b = a ++ r := by
  intro a
  induction a with
  | nil => intro b; simp [isPref]
  | cons x a ih =>
    intro b
    cases b with
    | nil => simp [isPref]
    | cons y b =>
      rw [isPref]
      constructor
      · intro h
        have hx : x = y := by
          have := (Bool.and_eq_true _ _).mp h  -- hmm placeholder
          exact of_decide_eq_true this.1
        obtain ⟨r, hr⟩ := (ih b).mp ((Bool.and_eq_true _ _).mp h).2
        exact ⟨r, by rw [hx, hr]; rfl⟩
      · rintro ⟨r, hr⟩
        cases hr
        simp [ih]

theorem isPref_refl (a : List Char) : isPref a a = true :=
  (isPref_iff a a).mpr ⟨[], by simp⟩

theorem isPref_trans (a b c : List Char) (h1 : isPref a b = true)
    (h2 : isPref b c = true) : isPref a c = true := by
  obtain ⟨r1, hr1⟩ := (isPref_iff a b).mp h1
  obtain ⟨r2, hr2⟩ := (isPref_iff b c).mp h2
  exact (isPref_iff a c).mpr ⟨r1 ++ r2, by rw [hr2, hr1, List.append_assoc]⟩

theorem commonPref_isPref_left : ∀ (a b : List Char), isPref (commonPref a b) a = true := by
  intro a
  induction a with
  | nil => intro b; cases b <;> simp [commonPref, isPref]
  | cons x a ih =>
    intro b
    cases b with
    | nil => simp [commonPref, isPref]
    | cons y b =>
      by_cases h : x = y
      · simp [commonPref, h, isPref, ih b]
      · simp [commonPref, h, isPref]

theorem commonPref_isPref_right : ∀ (a b : List Char), isPref (commonPref a b) b = true := by
  intro a
  induction a with
  | nil => intro b; cases b <;> simp [commonPref, isPref]
  | cons x a ih =>
    intro b
    cases b with
    | nil => simp [commonPref, isPref]
    | cons y b =>
      by_cases h : x = y
      · simp [commonPref, h, isPref, ih b]
      · simp [commonPref, h, isPref]

theorem foldl_commonPref_isPref : ∀ (is : List (List Char)) (acc : List Char),
    isPref (is.foldl commonPref acc) acc = true ∧
      ∀ x ∈ is, isPref (is.foldl commonPref acc) x = true := by
  intro is
  induction is with
  | nil => intro acc; exact ⟨isPref_refl acc, fun x hx => absurd hx (List.not_mem_nil x)⟩
  | cons i is ih =>
    intro acc
    rw [List.foldl_cons]
    obtain ⟨h1, h2⟩ := ih (commonPref acc i)
    refine ⟨isPref_trans _ _ _ h1 (commonPref_isPref_left acc i), ?_⟩
    intro x hx
    cases List.mem_cons.mp hx with
    | inl h => rw [h]; exact isPref_trans _ _ _ h1 (commonPref_isPref_right acc i)
    | inr h => exact h2 x h

theorem marginOf_isPref (lines : List (List Char)) (l : List Char)
    (hl : l ∈ lines) (hnw : hasNonWs l = true) :
    isPref (marginOf lines) (leadingWs l) = true := by
  unfold marginOf
  have hmem : leadingWs l ∈ (lines.filter hasNonWs).map leadingWs :=
    List.mem_map_of_mem _ (List.mem_filter.mpr ⟨hl, hnw⟩)
  cases hfm : (lines.filter hasNonWs).map leadingWs with
  | nil => rw [hfm] at hmem; cases hmem
  | cons i is =>
    rw [hfm] at hmem
    cases List.mem_cons.mp hmem with
    | inl h => exact h ▸ (foldl_commonPref_isPref is i).1
    | inr h => exact (foldl_commonPref_isPref is i).2 _ h

theorem isPref_replicate : ∀ (m : List Char) (n : Nat) (c : Char),
    isPref m (List.replicate n c) = true →
    m = List.replicate m.length c ∧ m.length ≤ n := by
  intro m
  induction m with
  | nil => intro n c _; exact ⟨rfl, Nat.zero_le n⟩
  | cons a m ih =>
    intro n c h
    cases n with
    | zero => rw [List.replicate_zero, isPref] at h; cases h
    | succ n =>
      rw [List.replicate_succ, isPref] at h
      have h' := (Bool.and_eq_true _ _).mp h
      have ha : a = c := of_decide_eq_true h'.1
      obtain ⟨hm, hn⟩ := ih n c h'.2
      constructor
      · rw [List.length_cons, List.replicate_succ, ha]
        exact congrArg (c :: ·) hm
      · rw [List.length_cons]
        omega

theorem isPref_replicate_append (j k : Nat) (c : Char) (x : List Char) (h : j ≤ k) :
    isPref (List.replicate j c) (List.replicate k c ++ x) = true := by
  refine (isPref_iff _ _).mpr ⟨List.replicate (k - j) c ++ x, ?_⟩
  rw [← List.append_assoc, ← List.replicate_add]
  congr 2
  omega

theorem drop_replicate_append (j k : Nat) (c : Char) (x : List Char) (h : j ≤ k) :
    (List.replicate k c ++ x).drop j = List.replicate (k - j) c ++ x := by
  have hk : List.replicate k c = List.replicate j c ++ List.replicate (k - j) c := by
    rw [← List.replicate_add]
    congr 1
    omega
  rw [hk, List.append_assoc]
  rw [List.drop_left' (List.length_replicate j c)]

theorem joinCh_mem (sep : List Char) : ∀ (ls : List (List Char)) (x : List Char), x ∈ ls →
    ∃ u v, joinCh sep ls = u ++ x ++ v := by
  intro ls
  induction ls with
  | nil => intro x hx; cases hx
  | cons l ls ih =>
    intro x hx
    cases ls with
    | nil =>
      have hxl : x = l := by simpa using hx
      exact ⟨[], [], by simp [joinCh, hxl]⟩
    | cons m ls' =>
      cases List.mem_cons.mp hx with
      | inl h =>
        exact ⟨[], sep ++ joinCh sep (m :: ls'), by rw [h]; simp [joinCh, List.append_assoc]⟩
      | inr h =>
        obtain ⟨u, v, huv⟩ := ih x h
        exact ⟨l ++ sep ++ u, v, by simp [joinCh, huv, List.append_assoc]⟩

theorem not_mem_of_all_ne (sep : Char) (l : List Char)
    (h : l.all (fun c => !(c = sep)) = true) : sep ∉ l := by
  intro hmem
  have := List.all_eq_true.mp h sep hmem
  simp at this

/-- A character sequence that occurs right after a newline and at least four
spaces survives textwrap.dedent whenever the text also holds a
non-whitespace line indented by exactly four spaces (that line pins the
common margin to at most four spaces). -/
theorem dedent_strIn (s t : String) (k : Nat)
    (hk : 4 ≤ k)
    (ht : noNl t = true)
    (hocc : ∃ u v, s.data = u ++ '\n' :: (List.replicate k ' ' ++ (t.data ++ v)))
    (hline : ∃ u v m, s.data = u ++ '\n' :: (m ++ '\n' :: v) ∧
      m.all (fun c => !(c = '\n')) = true ∧
      leadingWs m = List.replicate 4 ' ' ∧ hasNonWs m = true) :
    strIn t (dedent s) := by
  obtain ⟨u, v, hocc⟩ := hocc
  obtain ⟨u', v', m, hline, hmnl, hmws, hmnw⟩ := hline
  -- the pinning line is one of the split lines
  have hmmem : m ∈ splitCh '\n' s.data := by
    rw [hline, splitCh_append_sep, splitCh_append_sep,
      splitCh_no_sep '\n' m (not_mem_of_all_ne '\n' m hmnl)]
    exact List.mem_append_right _ (List.mem_append_left _ (List.mem_singleton.mpr rfl))
  -- the margin is at most four spaces
  have hmarg := marginOf_isPref (splitCh '\n' s.data) m hmmem hmnw
  rw [hmws] at hmarg
  obtain ⟨hmrep, hmlen⟩ := isPref_replicate _ 4 ' ' hmarg
  -- the line carrying t
  have hno : '\n' ∉ List.replicate k ' ' ++ t.data := by
    intro hmem
    cases List.mem_append.mp hmem with
    | inl h => exact absurd (List.eq_of_mem_replicate h) (by decide)
    | inr h => exact not_mem_of_all_ne '\n' t.data ht h
  obtain ⟨h0, t0, hv0, hsplit0⟩ := splitCh_append_no_sep '\n' (List.replicate k ' ' ++ t.data) v hno
  have hLmem : (List.replicate k ' ' ++ t.data) ++ h0 ∈ splitCh '\n' s.data := by
    rw [hocc]
    have : List.replicate k ' ' ++ (t.data ++ v)
        = (List.replicate k ' ' ++ t.data) ++ v := by
      rw [List.append_assoc]
    rw [this, splitCh_append_sep, hsplit0]
    exact List.mem_append_right _ (List.mem_cons_self _ _)
  -- strip the margin from that line
  set mg := marginOf (splitCh '\n' s.data) with hmg
  have hstrip : stripMargin mg ((List.replicate k ' ' ++ t.data) ++ h0)
      = List.replicate (k - mg.length) ' ' ++ (t.data ++ h0) := by
    unfold stripMargin
    have hpr : isPref mg ((List.replicate k ' ' ++ t.data) ++ h0) = true := by
      rw [hmrep, List.append_assoc]
      exact isPref_replicate_append mg.length k ' ' (t.data ++ h0) (le_trans hmlen hk)
    rw [if_pos hpr, List.append_assoc]
    exact drop_replicate_append mg.length k ' ' (t.data ++ h0) (le_trans hmlen hk)
  have hsmem : List.replicate (k - mg.length) ' ' ++ (t.data ++ h0)
      ∈ (splitCh '\n' s.data).map (stripMargin mg) := by
    rw [← hstrip]
    exact List.mem_map_of_mem _ hLmem
  obtain ⟨u1, v1, hjoin⟩ := joinCh_mem ['\n'] _ _ hsmem
  refine ⟨u1 ++ List.replicate (k - mg.length) ' ', h0 ++ v1, ?_⟩
  show (dedent s).data = _
  unfold dedent
  simp only []
  rw [← hmg]
  rw [hjoin]
  simp [List.append_assoc]

/- ------------------------------------------------------------------ -/
/- C5: joined-list decompositions and newline-freeness                -/
/- ------------------------------------------------------------------ -/

theorem pyJoin_mem_data (sep : String) : ∀ (l : List String) (x : String), x ∈ l →
    (∃ r, (pyJoin sep l).data = x.data ++ r) ∨
    (∃ a r, (pyJoin sep l).data = a ++ (sep.data ++ (x.data ++ r))) := by
  intro l
  induction l with
  | nil => intro x hx; cases hx
  | cons y l ih =>
    intro x hx
    cases l with
    | nil =>
      have hxy : x = y := by simpa using hx
      exact Or.inl ⟨[], by rw [hxy]; simp [pyJoin]⟩
    | cons z l' =>
      cases List.mem_cons.mp hx with
      | inl h =>
        refine Or.inl ⟨sep.data ++ (pyJoin sep (z :: l')).data, ?_⟩
        rw [h]
        simp [pyJoin, String.data_append, List.append_assoc]
      | inr h =>
        cases ih x h with
        | inl hc =>
          obtain ⟨r, hr⟩ := hc
          refine Or.inr ⟨y.data, r, ?_⟩
          simp [pyJoin, String.data_append, List.append_assoc, hr]
        | inr hc =>
          obtain ⟨a, r, hr⟩ := hc
          refine Or.inr ⟨y.data ++ (sep.data ++ a), r, ?_⟩
          simp [pyJoin, String.data_append, List.append_assoc, hr]

/-- When every dtype is mapped, the walk returns the declarations and
comment placeholders of all columns, in dataset column order. -/
theorem draftCols_ok (tn : String) : ∀ (cols : List (String × Dtype)),
    (∀ p ∈ cols, (_dtype_map p.2).isSome = true) →
    draftCols tn cols = .ok
      (cols.map (fun p => declOf p.1 ((_dtype_map p.2).getD "")),
       cols.map (fun p => colCommentOf tn p.1)) := by
  intro cols
  induction cols with
  | nil => intro _; rfl
  | cons p rest ih =>
    intro h
    obtain ⟨c, dt⟩ := p
    have hp := h (c, dt) (List.mem_cons_self _ _)
    cases hm : _dtype_map dt with
    | none => rw [hm] at hp; simp at hp
    | some ty =>
      have hrest := ih (fun q hq => h q (List.mem_cons_of_mem _ hq))
      simp [draftCols, hm, hrest]

theorem noNl_append (a b : String) : noNl (a ++ b) = (noNl a && noNl b) := by
  simp [noNl, String.data_append, List.all_append]

theorem _dtype_map_noNl (dt : Dtype) (ty : String) (h : _dtype_map dt = some ty) :
    noNl ty = true := by
  cases dt <;> simp [_dtype_map] at h <;> subst h <;> decide

theorem noNl_declOf (c ty : String) (hc : noNl c = true) (hty : noNl ty = true) :
    noNl (declOf c ty) = true := by
  unfold declOf
  rw [noNl_append, noNl_append, noNl_append, hc, hty]
  have h1 : noNl "\"" = true := by decide
  have h2 : noNl "\" " = true := by decide
  rw [h1, h2]
  rfl

theorem noNl_colCommentOf (tn c : String) (htn : noNl tn = true) (hc : noNl c = true) :
    noNl (colCommentOf tn c) = true := by
  unfold colCommentOf
  rw [noNl_append, noNl_append, noNl_append, noNl_append, htn, hc]
  have h1 : noNl "COMMENT ON COLUMN " = true := by decide
  have h2 : noNl "." = true := by decide
  have h3 : noNl " is E'';" = true := by decide
  rw [h1, h2, h3]
  rfl

theorem noNl_tableCommentOf (tn : String) (htn : noNl tn = true) :
    noNl (tableCommentOf tn) = true := by
  unfold tableCommentOf
  rw [noNl_append, noNl_append, htn]
  have h1 : noNl "COMMENT ON TABLE " = true := by decide
  have h2 : noNl " is E'';" = true := by decide
  rw [h1, h2]
  rfl

theorem leadingWs_four_create (X : List Char) :
    leadingWs (List.replicate 4 ' ' ++ 'C' :: X) = List.replicate 4 ' ' := by
  have h1 : isWs ' ' = true := by decide
  have h2 : isWs 'C' = false := by decide
  simp [leadingWs, List.replicate_succ, List.replicate_zero, List.takeWhile_cons, h1, h2]

/-- The generated text holds a non-whitespace line indented by exactly four
spaces: the CREATE TABLE line.  It pins dedent's margin to at most four
spaces. -/
theorem ddl_hline (tn cs cm : String) (htn : noNl tn = true) :
    ∃ u v m, (ddlTemplate tn cs cm).data = u ++ '\n' :: (m ++ '\n' :: v) ∧
      m.all (fun c => !(c = '\n')) = true ∧
      leadingWs m = List.replicate 4 ' ' ∧ hasNonWs m = true := by
  have hA : ("\n    CREATE TABLE " : String).data = '\n' :: ("    CREATE TABLE " : String).data := by decide
  have h8 : ("\n        " : String).data = '\n' :: List.replicate 8 ' ' := by decide
  have hCT : ("    CREATE TABLE " : String).data
      = List.replicate 4 ' ' ++ 'C' :: ("REATE TABLE " : String).data := by decide
  refine ⟨[],
    List.replicate 8 ' ' ++ (cs.data ++ (("\n    );" : String).data ++ (("\n" : String).data ++
      (("\n    " : String).data ++ ((tableCommentOf tn).data ++ (("\n" : String).data ++
      (("\n    " : String).data ++ (cm.data ++ ("\n    " : String).data)))))))),
    ("    CREATE TABLE " : String).data ++ (tn.data ++ (" (" : String).data), ?_, ?_, ?_, ?_⟩
  · simp [ddlTemplate, String.data_append, hA, h8, List.append_assoc]
  · have h1 : (("    CREATE TABLE " : String).data).all (fun c => !(c = '\n')) = true := by decide
    have h2 : ((" (" : String).data).all (fun c => !(c = '\n')) = true := by decide
    have htn' : tn.data.all (fun c => !(c = '\n')) = true := htn
    simp [List.all_append, h1, h2, htn']
  · rw [hCT, List.append_assoc, List.cons_append]
    exact leadingWs_four_create _
  · have hC : (!(isWs 'C')) = true := by decide
    simp [hasNonWs, hCT, List.any_append, List.any_cons, hC]

/-- Occurrence of a joined column declaration after a newline and eight
spaces. -/
theorem ddl_occ_decl (tn cs cm x : String)
    (h : (∃ r, cs.data = x.data ++ r) ∨
      (∃ a r, cs.data = a ++ ((",\n        " : String).data ++ (x.data ++ r)))) :
    ∃ u v, (ddlTemplate tn cs cm).data
      = u ++ '\n' :: (List.replicate 8 ' ' ++ (x.data ++ v)) := by
  have hA : ("\n    CREATE TABLE " : String).data = '\n' :: ("    CREATE TABLE " : String).data := by decide
  have h8 : ("\n        " : String).data = '\n' :: List.replicate 8 ' ' := by decide
  have hsep : ((",\n        " : String)).data = ',' :: '\n' :: List.replicate 8 ' ' := by decide
  cases h with
  | inl hc =>
    obtain ⟨r, hr⟩ := hc
    refine ⟨'\n' :: (("    CREATE TABLE " : String).data ++ (tn.data ++ (" (" : String).data)),
      r ++ (("\n    );" : String).data ++ (("\n" : String).data ++ (("\n    " : String).data ++
        ((tableCommentOf tn).data ++ (("\n" : String).data ++ (("\n    " : String).data ++
        (cm.data ++ ("\n    " : String).data))))))), ?_⟩
    simp [ddlTemplate, String.data_append, hA, h8, hr, List.append_assoc]
  | inr hc =>
    obtain ⟨a, r, hr⟩ := hc
    refine ⟨'\n' :: (("    CREATE TABLE " : String).data ++ (tn.data ++ ((" (" : String).data ++
        ('\n' :: (List.replicate 8 ' ' ++ (a ++ [','])))))),
      r ++ (("\n    );" : String).data ++ (("\n" : String).data ++ (("\n    " : String).data ++
        ((tableCommentOf tn).data ++ (("\n" : String).data ++ (("\n    " : String).data ++
        (cm.data ++ ("\n    " : String).data))))))), ?_⟩
    simp [ddlTemplate, String.data_append, hA, h8, hsep, hr, List.append_assoc]

/-- Occurrence of a joined comment line after a newline and four spaces. -/
theorem ddl_occ_cmt (tn cs cm x : String)
    (h : (∃ r, cm.data = x.data ++ r) ∨
      (∃ a r, cm.data = a ++ (("\n    " : String).data ++ (x.data ++ r)))) :
    ∃ u v, (ddlTemplate tn cs cm).data
      = u ++ '\n' :: (List.replicate 4 ' ' ++ (x.data ++ v)) := by
  have hA : ("\n    CREATE TABLE " : String).data = '\n' :: ("    CREATE TABLE " : String).data := by decide
  have h8 : ("\n        " : String).data = '\n' :: List.replicate 8 ' ' := by decide
  have h4 : ("\n    " : String).data = '\n' :: List.replicate 4 ' ' := by decide
  have hN : ("\n" : String).data = ['\n'] := by decide
  cases h with
  | inl hc =>
    obtain ⟨r, hr⟩ := hc
    refine ⟨('\n' :: ("    CREATE TABLE " : String).data) ++ tn.data ++ (" (" : String).data ++
        ('\n' :: List.replicate 8 ' ') ++ cs.data ++ ("\n    );" : String).data ++
        ['\n'] ++ ('\n' :: (List.replicate 4 ' ' ++ (tableCommentOf tn).data ++ ['\n'])),
      r ++ ("\n    " : String).data, ?_⟩
    simp [ddlTemplate, String.data_append, hA, h8, h4, hN, hr, List.append_assoc]
  | inr hc =>
    obtain ⟨a, r, hr⟩ := hc
    refine ⟨('\n' :: ("    CREATE TABLE " : String).data) ++ tn.data ++ (" (" : String).data ++
        ('\n' :: List.replicate 8 ' ') ++ cs.data ++ ("\n    );" : String).data ++
        ['\n'] ++ ('\n' :: List.replicate 4 ' ') ++ (tableCommentOf tn).data ++
        ['\n'] ++ ('\n' :: List.replicate 4 ' ') ++ a,
      r ++ ("\n    " : String).data, ?_⟩
    simp [ddlTemplate, String.data_append, hA, h8, h4, hN, hr, List.append_assoc]

/-- Occurrence of the table comment placeholder after a newline and four
spaces. -/
theorem ddl_occ_table (tn cs cm : String) :
    ∃ u v, (ddlTemplate tn cs cm).data
      = u ++ '\n' :: (List.replicate 4 ' ' ++ ((tableCommentOf tn).data ++ v)) := by
  have hA : ("\n    CREATE TABLE " : String).data = '\n' :: ("    CREATE TABLE " : String).data := by decide
  have h8 : ("\n        " : String).data = '\n' :: List.replicate 8 ' ' := by decide
  have h4 : ("\n    " : String).data = '\n' :: List.replicate 4 ' ' := by decide
  have hN : ("\n" : String).data = ['\n'] := by decide
  refine ⟨'\n' :: (("    CREATE TABLE " : String).data ++ (tn.data ++ ((" (" : String).data ++
      ('\n' :: (List.replicate 8 ' ' ++ (cs.data ++ (("\n    );" : String).data ++ ['\n']))))))),
    ("\n" : String).data ++ (("\n    " : String).data ++ (cm.data ++ ("\n    " : String).data)), ?_⟩
  simp [ddlTemplate, String.data_append, hA, h8, h4, hN, List.append_assoc]

/- ------------------------------------------------------------------ -/
/- C5                                                                 -/
/- ------------------------------------------------------------------ -/

/-- C5: for every DataFrame all of whose column dtypes are in the fixed
mapping (whose entries are exactly float64 to numeric(12, 6), float32 to
numeric(10, 4), int64 to INT, int32 to SMALLINT, naive timestamp to
TIMESTAMP WITHOUT TIME ZONE, UTC-aware timestamp to TIMESTAMPTZ, object to
TEXT), draft_sql_ddl_statement succeeds and its DDL text holds, for each
dataset column in order, one quoted column declaration carrying the mapped
type string, one documentation-comment placeholder per column, and one per
table (column names and the table name newline-free, as pandas column
labels are). -/
theorem claim_C5 (df : DataFrame) (tn : String)
    (hmap : ∀ p ∈ df.columns, (_dtype_map p.2).isSome = true)
    (htn : noNl tn = true)
    (hcols : ∀ p ∈ df.columns, noNl p.1 = true) :
    (_dtype_map Dtype.float64 = some "numeric(12, 6)" ∧
     _dtype_map Dtype.float32 = some "numeric(10, 4)" ∧
     _dtype_map Dtype.int64 = some "INT" ∧
     _dtype_map Dtype.int32 = some "SMALLINT" ∧
     _dtype_map Dtype.datetime64ns = some "TIMESTAMP WITHOUT TIME ZONE" ∧
     _dtype_map Dtype.datetime64nsUTC = some "TIMESTAMPTZ" ∧
     _dtype_map Dtype.object = some "TEXT") ∧
    draftCols tn df.columns = .ok
      (df.columns.map (fun p => declOf p.1 ((_dtype_map p.2).getD "")),
       df.columns.map (fun p => colCommentOf tn p.1)) ∧
    ∃ out, draft_sql_ddl_statement df (some tn) = .ok out ∧
      strIn (tableCommentOf tn) out ∧
      ∀ p ∈ df.columns, ∀ ty, _dtype_map p.2 = some ty →
        strIn (declOf p.1 ty) out ∧ strIn (colCommentOf tn p.1) out := by
  have hdc := draftCols_ok tn df.columns hmap
  refine ⟨⟨rfl, rfl, rfl, rfl, rfl, rfl, rfl⟩, hdc, ?_⟩
  refine ⟨dedent (ddlTemplate tn
      (pyJoin ",\n        " (df.columns.map (fun p => declOf p.1 ((_dtype_map p.2).getD ""))))
      (pyJoin "\n    " (df.columns.map (fun p => colCommentOf tn p.1)))), ?_, ?_, ?_⟩
  · unfold draft_sql_ddl_statement
    simp only [hdc, Option.getD_some]
  · exact dedent_strIn _ _ 4 (le_refl 4) (noNl_tableCommentOf tn htn)
      (ddl_occ_table tn _ _) (ddl_hline tn _ _ htn)
  · intro p hp ty hty
    have hcp := hcols p hp
    have htyn := _dtype_map_noNl p.2 ty hty
    constructor
    · have hdmem : declOf p.1 ty
          ∈ df.columns.map (fun p => declOf p.1 ((_dtype_map p.2).getD "")) := by
        refine List.mem_map.mpr ⟨p, hp, ?_⟩
        rw [hty]
        rfl
      exact dedent_strIn _ _ 8 (by omega) (noNl_declOf p.1 ty hcp htyn)
        (ddl_occ_decl tn _ _ _ (pyJoin_mem_data ",\n        " _ _ hdmem))
        (ddl_hline tn _ _ htn)
    · have hcmem : colCommentOf tn p.1 ∈ df.columns.map (fun p => colCommentOf tn p.1) :=
        List.mem_map.mpr ⟨p, hp, rfl⟩
      exact dedent_strIn _ _ 4 (le_refl 4) (noNl_colCommentOf tn p.1 htn hcp)
        (ddl_occ_cmt tn _ _ _ (pyJoin_mem_data "\n    " _ _ hcmem))
        (ddl_hline tn _ _ htn)

theorem claim_C5_witness :
    ∃ out, draft_sql_ddl_statement dfC5 (some "tbl") = .ok out ∧
      strIn (tableCommentOf "tbl") out ∧
      ∀ p ∈ dfC5.columns, ∀ ty, _dtype_map p.2 = some ty →
        strIn (declOf p.1 ty) out ∧ strIn (colCommentOf "tbl" p.1) out :=
  (claim_C5 dfC5 "tbl" (by decide) (by decide) (by decide)).2.2
